import Mathlib

/-!
# Lost & Found Buddy: the item API of `backend/uploads/server.js`

A shallow embedding of the three route handlers of the Express backend
(`GET /api/items`, `GET /api/items/:id`, `POST /api/items`) together with the
multer storage configuration, followed by theorems about them.

Modelling conventions

* `mockItems` is a JavaScript array of objects; it is a `List Item` passed in and out of the
  handlers explicitly.
* Values the handlers receive from the outside (query parameters, multipart form fields) are
  JavaScript values: `JsVal`.  A property that is absent reads as `JsVal.undefined`.
* Record ids are JavaScript numbers that are always produced by integer arithmetic on the seed
  ids; they are `Int` (exact below `2^53`, which is where doubles stop being exact).
* A handler that throws (a `TypeError` on a method call on a non-string) is `Except.error`;
  Express turns such a throw into its default 500 response.
* The clock and `Date.prototype.toISOString` belong to the runtime: a create request is handled
  under a `Clock` that records what `Date.now()` returned when multer named the file and what
  `new Date().toISOString()` returned in the handler.
-/

set_option maxRecDepth 100000

namespace LostAndFound

/-! ## JavaScript values -/

/-- A value as produced by the query-string parser or the multipart parser (and the `null`
literal of the seed records).  Repeated parameters (`q=a&q=b`) give arrays, bracketed
parameters (`q[k]=v`) give objects; deeper nestings behave like these two in every operation
the handlers perform and are not distinguished. -/
inductive JsVal where
  | undefined
  | null
  | str (s : String)
  | arr (xs : List String)
  | obj (kvs : List (String × String))
  deriving DecidableEq, Repr

/-- The exception a handler can throw. -/
inductive JsError where
  | typeError
  deriving DecidableEq, Repr

/-- JavaScript truthiness, as tested by `if (q)`. -/
def JsVal.truthy : JsVal → Bool
  | .undefined => false
  | .null => false
  | .str s => s != ""
  | .arr _ => true
  | .obj _ => true

/-- The function `String.prototype.toLowerCase` on the ASCII letters (the runtime maps the other
cased characters of Unicode as well). -/
def toLowerCase (s : String) : String := ⟨s.data.map Char.toLower⟩

/-- The function `String.prototype.includes`: `searchTerm` occurs in `s` as a contiguous run. -/
def includes (s searchTerm : String) : Bool := decide (searchTerm.data <:+: s.data)

/-- The function `String.prototype.slice(0, n)`. -/
def sliceTo (s : String) (n : Nat) : String := ⟨s.data.take n⟩

/-- The method call `v.toLowerCase()` on an arbitrary value: defined on strings; on `undefined`
and `null` the property read throws, on arrays and objects the property is not a function. -/
def JsVal.callToLowerCase : JsVal → Except JsError String
  | .str s => .ok (toLowerCase s)
  | _ => .error .typeError

/-! ## Data model -/

/-- An element of `mockItems`.  `extra` holds the properties other than the eight named ones
that a submitted form may carry; the handlers never touch them. -/
structure Item where
  id : Int
  type : JsVal
  title : JsVal
  description : JsVal
  location : JsVal
  date : JsVal
  contact : JsVal
  image : JsVal
  extra : List (String × JsVal)
  deriving DecidableEq, Repr

/-- The parsed text fields of a multipart submission (`req.body`): every field is optional and
client-chosen, including `id`, `date` and `image`. -/
structure Form where
  id : JsVal
  type : JsVal
  title : JsVal
  description : JsVal
  location : JsVal
  date : JsVal
  contact : JsVal
  image : JsVal
  extra : List (String × JsVal)
  deriving DecidableEq, Repr

/-- The file part of a multipart submission as multer hands it to `storage.filename`. -/
structure UploadedFile where
  originalname : String
  deriving DecidableEq, Repr

/-- A create request: the text fields and the optional `itemImage` file. -/
structure CreateRequest where
  body : Form
  file : Option UploadedFile
  deriving DecidableEq, Repr

/-- The parsed query of a list request (`req.query`), restricted to the two properties read. -/
structure Query where
  q : JsVal
  type : JsVal
  deriving DecidableEq, Repr

/-- Clock readings during one create request: `dateNow` is `Date.now()` inside
`storage.filename`, `isoNow` is `new Date().toISOString()` inside the handler. -/
structure Clock where
  dateNow : Int
  isoNow : String
  deriving DecidableEq, Repr

/-- A JSON response body. -/
inductive Body where
  | items (xs : List Item)
  | item (x : Item)
  | message (text : String)
  deriving DecidableEq, Repr

/-- The outcome of `res.status(..).json(..)`. -/
structure Response where
  status : Nat
  body : Body
  deriving DecidableEq, Repr

/-- The initial value of `mockItems`. -/
def mockItems : List Item :=
  [ { id := 1, type := .str "lost", title := .str "Black Leather Wallet",
      description := .str "Lost near the campus library entrance. It has a driver's license and a few credit cards inside.",
      location := .str "Campus Library", date := .str "2025-08-15",
      contact := .str "john.doe@email.com", image := .null, extra := [] },
    { id := 2, type := .str "found", title := .str "Silver Keychain",
      description := .str "Found on the bench in the park. It has two keys and a small elephant charm.",
      location := .str "City Park", date := .str "2025-08-14",
      contact := .str "jane.smith@email.com", image := .null, extra := [] },
    { id := 3, type := .str "lost", title := .str "Blue Backpack",
      description := .str "Left my blue backpack on the bus. It contains a laptop and some textbooks.",
      location := .str "Bus Route #42", date := .str "2025-08-13",
      contact := .str "alex.jones@email.com", image := .null, extra := [] },
    { id := 4, type := .str "found", title := .str "Single Earring",
      description := .str "Found a gold hoop earring outside of the grocery store. It has a small red stone.",
      location := .str "Grocery Store", date := .str "2025-08-12",
      contact := .str "samantha.brown@email.com", image := .null, extra := [] } ]

/-! ## `GET /api/items` -/

/-- The callback of the first `filter`: the three clauses of `||` are evaluated left to right
and evaluation stops at the first that is true. -/
def matchesSearch (searchTerm : String) (item : Item) : Except JsError Bool := do
  let title ← item.title.callToLowerCase
  if includes title searchTerm then return true
  let description ← item.description.callToLowerCase
  if includes description searchTerm then return true
  let location ← item.location.callToLowerCase
  return includes location searchTerm

/-- The method `Array.prototype.filter` with a callback that may throw: elements are visited in
order and the first throw aborts the call. -/
def filterItems (p : Item → Except JsError Bool) : List Item → Except JsError (List Item)
  | [] => .ok []
  | x :: xs => do
    let keep ← p x
    let rest ← filterItems p xs
    return (if keep then x :: rest else rest)

/-- The first `if` of the list handler. -/
def filterBySearch (items : List Item) (q : JsVal) : Except JsError (List Item) :=
  if q.truthy then do
    let searchTerm ← q.callToLowerCase
    filterItems (matchesSearch searchTerm) items
  else .ok items

/-- The second `if` of the list handler; `item.type === itemType` on a string `itemType`. -/
def filterByType (items : List Item) (type : JsVal) : Except JsError (List Item) :=
  if type.truthy then do
    let itemType ← type.callToLowerCase
    return items.filter (fun item => decide (item.type = .str itemType))
  else .ok items

/-- The handler of `GET /api/items`. -/
def listItems (items : List Item) (query : Query) : Except JsError Response := do
  let filteredItems ← filterBySearch items query.q
  let filteredItems ← filterByType filteredItems query.type
  return { status := 200, body := .items filteredItems }

/-! ## `GET /api/items/:id` -/

/-- The white space and line terminator characters that `parseInt` skips. -/
def isStrWhiteSpaceChar (c : Char) : Bool :=
  let n := c.toNat
  n == 0x09 || n == 0x0A || n == 0x0B || n == 0x0C || n == 0x0D || n == 0x20 || n == 0xA0 ||
  n == 0x1680 || (0x2000 ≤ n && n ≤ 0x200A) || n == 0x2028 || n == 0x2029 || n == 0x202F ||
  n == 0x205F || n == 0x3000 || n == 0xFEFF

/-- The value of a run of decimal digits. -/
def digitsValue (ds : List Char) : Nat :=
  ds.foldl (fun acc c => 10 * acc + (c.toNat - 48)) 0

/-- The function `parseInt(string, 10)`: leading white space is skipped, one sign is read, then
the longest run of decimal digits; `none` is `NaN` (no digit was found). -/
def parseInt (string : String) : Option Int :=
  let trimmed := string.data.dropWhile isStrWhiteSpaceChar
  let signed : Int × List Char :=
    match trimmed with
    | '-' :: rest => (-1, rest)
    | '+' :: rest => (1, rest)
    | other => (1, other)
  let digits := signed.2.takeWhile Char.isDigit
  if digits.isEmpty then none else some (signed.1 * (digitsValue digits : Int))

/-- The comparison `i.id === itemId`, where `itemId` may be `NaN`. -/
def idEquals (itemId : Option Int) (i : Item) : Bool :=
  match itemId with
  | some n => decide (i.id = n)
  | none => false

/-- The handler of `GET /api/items/:id`. -/
def getItem (items : List Item) (idParam : String) : Response :=
  let itemId := parseInt idParam
  match items.find? (idEquals itemId) with
  | some item => { status := 200, body := .item item }
  | none => { status := 404, body := .message "Item not found" }

/-! ## `POST /api/items` -/

/-- The `filename` callback of the multer disk storage. -/
def storageFilename (dateNow : Int) (file : UploadedFile) : String :=
  toString dateNow ++ "-" ++ file.originalname

/-- The expression `Math.max(...mockItems.map(i => i.id)) + 1`, guarded by the length test. -/
def nextId (items : List Item) : Int :=
  match items.map (fun i => i.id) with
  | [] => 1
  | x :: xs => xs.foldl max x + 1

/-- The object `newItem` at the end of the create handler: `req.body` with `image` set when a
file was uploaded, then `id` and `date` assigned. -/
def newItem (items : List Item) (clock : Clock) (req : CreateRequest) : Item :=
  { id := nextId items
    type := req.body.type
    title := req.body.title
    description := req.body.description
    location := req.body.location
    date := .str (sliceTo clock.isoNow 10)
    contact := req.body.contact
    image :=
      match req.file with
      | some file => .str ("/uploads/" ++ storageFilename clock.dateNow file)
      | none => req.body.image
    extra := req.body.extra }

/-- The handler of `POST /api/items`: the new value of `mockItems` and the response. -/
def createItem (items : List Item) (clock : Clock) (req : CreateRequest) : List Item × Response :=
  let item := newItem items clock req
  (items ++ [item], { status := 201, body := .item item })

/-! ## The server as a transition system -/

/-- A request to one of the three item routes. -/
inductive Request where
  | list (query : Query)
  | get (idParam : String)
  | create (clock : Clock) (req : CreateRequest)
  deriving DecidableEq, Repr

/-- One request served on the collection `items`: the collection afterwards and what the
handler produced. -/
def handle (items : List Item) : Request → List Item × Except JsError Response
  | .list query => (items, listItems items query)
  | .get idParam => (items, .ok (getItem items idParam))
  | .create clock req =>
    let r := createItem items clock req
    (r.1, .ok r.2)

/-- The collections reachable from the seed records by any sequence of requests. -/
inductive Reachable : List Item → Prop where
  | seed : Reachable mockItems
  | step (items : List Item) (r : Request) : Reachable items → Reachable (handle items r).1

/-- The collections reachable from the seed records by create requests alone. -/
inductive ReachableByCreate : List Item → Prop where
  | seed : ReachableByCreate mockItems
  | create (items : List Item) (clock : Clock) (req : CreateRequest) :
      ReachableByCreate items → ReachableByCreate (createItem items clock req).1

/-! ## The wording of the specification for the list endpoint -/

/-- A query parameter that is absent or a string, as a JavaScript value. -/
def JsVal.ofParam : Option String → JsVal
  | none => .undefined
  | some s => .str s

/-- The value is a string. -/
def JsVal.isString : JsVal → Bool
  | .str _ => true
  | _ => false

/-- The record has the three text fields of the data model (title, description, location) as
strings. -/
def Item.hasTextFields (r : Item) : Bool :=
  r.title.isString && r.description.isString && r.location.isString

/-- The term is a substring of the lowercased field. -/
def fieldContains (field : JsVal) (term : String) : Bool :=
  match field with
  | .str s => includes (toLowerCase s) term
  | _ => false

/-- Condition (i) of the list contract: `q` is absent or empty, or the lowercased `q` is a
substring of the lowercased title, description or location. -/
def specSearchOk (q : Option String) (r : Item) : Bool :=
  match q with
  | none => true
  | some s =>
    s == "" || fieldContains r.title (toLowerCase s) ||
      fieldContains r.description (toLowerCase s) || fieldContains r.location (toLowerCase s)

/-- Condition (ii) of the list contract: `type` is absent or empty, or the record's type equals
the lowercased `type`. -/
def specTypeOk (type : Option String) (r : Item) : Bool :=
  match type with
  | none => true
  | some t => t == "" || decide (r.type = .str (toLowerCase t))

/-- The records the list contract selects: both conditions hold. -/
def specSelects (q type : Option String) (r : Item) : Bool :=
  specSearchOk q r && specTypeOk type r


/-! ## Invariant, sample requests and type predicates -/

/-- Ids increase strictly along the collection. -/
def IdsIncreasing (items : List Item) : Prop :=
  items.Pairwise (fun a b => a.id < b.id)

/-- A create request with the form of the Red Scarf example and no file. -/
def redScarf : CreateRequest :=
  { body := { id := .undefined, type := .str "found", title := .str "Red Scarf",
              description := .str "Found at gate 3", location := .str "Airport",
              date := .undefined, contact := .undefined, image := .undefined, extra := [] },
    file := none }

/-- A clock reading on 2025-08-16. -/
def sampleClock : Clock :=
  { dateNow := 1755331200000, isoNow := "2025-08-16T08:00:00.000Z" }

/-- A create request whose type is neither of the two of the data model. -/
def stolenBike : CreateRequest :=
  { body := { id := .undefined, type := .str "stolen", title := .str "Bike",
              description := .str "Taken from the rack", location := .str "Station",
              date := .undefined, contact := .undefined, image := .undefined, extra := [] },
    file := none }

/-- A create request that has no title field. -/
def untitled : CreateRequest :=
  { body := { id := .undefined, type := .str "found", title := .undefined,
              description := .str "Found at gate 3", location := .str "Airport",
              date := .undefined, contact := .undefined, image := .undefined, extra := [] },
    file := none }

/-- The record's type is the string `lost`. -/
def isLost (r : Item) : Bool := decide (r.type = .str "lost")

/-- The record's type is the string `found`. -/
def isFound (r : Item) : Bool := decide (r.type = .str "found")

/-- A create request that has no description field. -/
def undescribed : CreateRequest :=
  { body := { id := .undefined, type := .str "found", title := .str "Red Scarf",
              description := .undefined, location := .str "Airport",
              date := .undefined, contact := .undefined, image := .undefined, extra := [] },
    file := none }

/-! ## The wording of the specification for the id parameter -/

/-- The string is a decimal integer numeral: an optional sign and then one or more decimal
digits, nothing else. -/
def isDecimalNumeral (s : String) : Bool :=
  let digits : List Char :=
    match s.data with
    | '-' :: rest => rest
    | '+' :: rest => rest
    | other => other
  !digits.isEmpty && digits.all Char.isDigit

/-- A decimal digit follows the leading white space and the optional sign of the string. -/
def startsWithDigit (s : String) : Bool :=
  let unsigned : List Char :=
    match s.data.dropWhile isStrWhiteSpaceChar with
    | '-' :: rest => rest
    | '+' :: rest => rest
    | other => other
  match unsigned with
  | c :: _ => c.isDigit
  | [] => false

/-! ## The Post view of `frontend/src/App.js` -/

/-- A file chosen in the file input of the Post view. -/
structure ImageFile where
  name : String
  deriving DecidableEq, Repr

/-- The `formData` state of `PostItemPage`: the five values come from `e.target.value` of the
inputs and are strings, `imageFile` is `null` or the chosen file. -/
structure PostForm where
  type : String
  title : String
  description : String
  location : String
  contact : String
  imageFile : Option ImageFile
  deriving DecidableEq, Repr

/-- The state of the `PostItemPage` component. -/
structure PostItemPage where
  formData : PostForm
  imagePreview : Option String
  deriving DecidableEq, Repr

/-- One `data.append(name, value)` on the multipart body. -/
inductive Part where
  | text (name value : String)
  | file (name : String) (value : ImageFile)
  deriving DecidableEq, Repr

/-- How the awaited `fetch` ends: a response with `ok` true, a response with `ok` false, or a
rejection (the `catch` branch). -/
inductive FetchOutcome where
  | ok
  | notOk
  | rejected
  deriving DecidableEq, Repr

/-- What `handleSubmit` does to the outside, in order. -/
inductive Effect where
  | preventDefault
  | fetch (url method : String) (body : List Part)
  | alert (message : String)
  | consoleError
  | fetchItems
  deriving DecidableEq, Repr

/-- The form the component starts with and resets to. -/
def emptyForm : PostForm :=
  { type := "lost", title := "", description := "", location := "", contact := "",
    imageFile := none }

/-- The multipart body `data` built from the form. -/
def submission (formData : PostForm) : List Part :=
  [ .text "type" formData.type, .text "title" formData.title,
    .text "description" formData.description, .text "location" formData.location,
    .text "contact" formData.contact ] ++
  (match formData.imageFile with
   | some file => [.file "itemImage" file]
   | none => [])

/-- The handler `PostItemPage.handleSubmit`: the state of the component afterwards and the
effects, given how the request ends if one is made. -/
def handleSubmit (page : PostItemPage) (outcome : FetchOutcome) : PostItemPage × List Effect :=
  if page.formData.title != "" && page.formData.description != "" &&
      page.formData.location != "" then
    let request := Effect.fetch "http://localhost:3001/api/items" "POST" (submission page.formData)
    match outcome with
    | .ok =>
      ({ formData := emptyForm, imagePreview := none },
       [.preventDefault, request, .alert "Item posted successfully!", .fetchItems])
    | .notOk => (page, [.preventDefault, request, .alert "Failed to post item."])
    | .rejected =>
      (page, [.preventDefault, request, .consoleError,
              .alert "An error occurred while posting the item."])
  else (page, [.preventDefault, .alert "Please fill out all required fields."])

/-- Whether a run of `handleSubmit` made a request. -/
def issuesRequest (effects : List Effect) : Bool :=
  effects.any (fun e => match e with
    | .fetch _ _ _ => true
    | _ => false)

/-! ## Auxiliary facts about the list filters -/

theorem matchesSearch_of_textFields (term : String) (r : Item) (h : r.hasTextFields = true) :
    matchesSearch term r = .ok (fieldContains r.title term || fieldContains r.description term
      || fieldContains r.location term) := by
  obtain ⟨id, ty, title, description, location, date, contact, image, extra⟩ := r
  cases title <;> cases description <;> cases location <;>
    simp [Item.hasTextFields, JsVal.isString] at h
  simp only [matchesSearch, JsVal.callToLowerCase, fieldContains, bind, Except.bind, pure,
    Except.pure]
  split_ifs <;> simp_all

theorem filterItems_matchesSearch (term : String) (items : List Item)
    (h : ∀ r ∈ items, r.hasTextFields = true) :
    filterItems (matchesSearch term) items = .ok (items.filter (fun r =>
      fieldContains r.title term || fieldContains r.description term
        || fieldContains r.location term)) := by
  induction items with
  | nil => rfl
  | cons x xs ih =>
    have hx := h x (List.mem_cons_self _ _)
    have hxs := ih (fun r hr => h r (List.mem_cons_of_mem _ hr))
    simp only [filterItems, matchesSearch_of_textFields term x hx, hxs, bind, Except.bind, pure,
      Except.pure, List.filter_cons]

theorem filterBySearch_ofParam (items : List Item) (q : Option String)
    (hwf : ∀ s, q = some s → s ≠ "" → ∀ r ∈ items, r.hasTextFields = true) :
    filterBySearch items (.ofParam q) = .ok (items.filter (specSearchOk q)) := by
  cases q with
  | none =>
    have hp : specSearchOk none = fun _ => true := rfl
    simp [filterBySearch, JsVal.ofParam, JsVal.truthy, hp]
  | some s =>
    by_cases hs : s = ""
    · subst hs
      have hp : specSearchOk (some "") = fun _ => true := by
        funext r
        simp [specSearchOk]
      simp [filterBySearch, JsVal.ofParam, JsVal.truthy, hp]
    · have h := filterItems_matchesSearch (toLowerCase s) items (hwf s rfl hs)
      have hp : specSearchOk (some s) = fun r =>
          fieldContains r.title (toLowerCase s) || fieldContains r.description (toLowerCase s)
            || fieldContains r.location (toLowerCase s) := by
        funext r
        have hb : (s == "") = false := by simpa using hs
        simp [specSearchOk, hb]
      simp [filterBySearch, JsVal.ofParam, JsVal.truthy, hs, JsVal.callToLowerCase, bind,
        Except.bind, h, hp]

theorem filterByType_ofParam (items : List Item) (type : Option String) :
    filterByType items (.ofParam type) = .ok (items.filter (specTypeOk type)) := by
  cases type with
  | none =>
    have hp : specTypeOk none = fun _ => true := rfl
    simp [filterByType, JsVal.ofParam, JsVal.truthy, hp]
  | some t =>
    by_cases ht : t = ""
    · subst ht
      have hp : specTypeOk (some "") = fun _ => true := by
        funext r
        simp [specTypeOk]
      simp [filterByType, JsVal.ofParam, JsVal.truthy, hp]
    · have hp : specTypeOk (some t) = fun r => decide (r.type = .str (toLowerCase t)) := by
        funext r
        simp [specTypeOk, ht]
      simp [filterByType, JsVal.ofParam, JsVal.truthy, ht, JsVal.callToLowerCase, bind,
        Except.bind, pure, Except.pure, hp]

theorem listItems_ofParam (items : List Item) (q type : Option String)
    (hwf : ∀ s, q = some s → s ≠ "" → ∀ r ∈ items, r.hasTextFields = true) :
    listItems items { q := .ofParam q, type := .ofParam type } =
      .ok { status := 200, body := .items (items.filter (specSelects q type)) } := by
  have hsel : specSelects q type = fun r => specTypeOk type r && specSearchOk q r := by
    funext r
    simp [specSelects, Bool.and_comm]
  simp [listItems, filterBySearch_ofParam items q hwf, filterByType_ofParam, bind, Except.bind,
    pure, Except.pure, List.filter_filter, hsel]

/-! ## Auxiliary facts about id assignment -/

theorem foldl_max_spec (xs : List Int) (x : Int) :
    xs.foldl max x ∈ x :: xs ∧ ∀ y ∈ x :: xs, y ≤ xs.foldl max x := by
  induction xs generalizing x with
  | nil => simp
  | cons a as ih =>
    obtain ⟨hmem, hle⟩ := ih (max x a)
    refine ⟨?_, ?_⟩
    · simp only [List.foldl_cons]
      rcases List.mem_cons.1 hmem with h | h
      · rw [h]
        rcases max_choice x a with hx | ha
        · rw [hx]; exact List.mem_cons_self _ _
        · rw [ha]; exact List.mem_cons_of_mem _ (List.mem_cons_self _ _)
      · exact List.mem_cons_of_mem _ (List.mem_cons_of_mem _ h)
    · intro y hy
      simp only [List.foldl_cons]
      have hm := hle (max x a) (List.mem_cons_self _ _)
      rcases List.mem_cons.1 hy with h | h
      · rw [h]; exact le_trans (le_max_left x a) hm
      · rcases List.mem_cons.1 h with h | h
        · rw [h]; exact le_trans (le_max_right x a) hm
        · exact hle y (List.mem_cons_of_mem _ h)

theorem nextId_spec (items : List Item) (hne : items ≠ []) :
    (∃ m ∈ items, nextId items = m.id + 1) ∧ ∀ i ∈ items, i.id < nextId items := by
  cases items with
  | nil => exact absurd rfl hne
  | cons x xs =>
    have h := foldl_max_spec (xs.map (fun i => i.id)) x.id
    have hn : nextId (x :: xs) = (xs.map (fun i => i.id)).foldl max x.id + 1 := rfl
    obtain ⟨hmem, hle⟩ := h
    refine ⟨?_, ?_⟩
    · have hmem2 : (xs.map (fun i => i.id)).foldl max x.id ∈ (x :: xs).map (fun i => i.id) := by
        simpa using hmem
      obtain ⟨m, hm, hmid⟩ := List.mem_map.1 hmem2
      exact ⟨m, hm, by rw [hn, ← hmid]⟩
    · intro i hi
      have : i.id ∈ x.id :: xs.map (fun i => i.id) := by
        have := List.mem_map_of_mem (fun i : Item => i.id) hi
        simpa using this
      have := hle _ this
      rw [hn]
      omega


/-! ## The list endpoint returns the matching records -/

/-- C1, as stated, fails on a collection the server can hold: after a create request without a
title, `q=wallet` (a string) makes the list handler throw on the new record instead of
answering 200. -/
theorem list_throws_on_untitled_record :
    ReachableByCreate (createItem mockItems sampleClock untitled).1 ∧
    listItems (createItem mockItems sampleClock untitled).1
      { q := .ofParam (some "wallet"), type := .ofParam none } = .error .typeError :=
  ⟨.create _ _ _ .seed, rfl⟩

/-- C1, amended: for every item collection whose records have string title, description and
location (needed only when `q` is a non-empty string) and every `q` and `type` that are absent
or strings, `GET /api/items` answers 200 with exactly the records, in collection order, that
satisfy both conditions of the contract (`specSelects`): `q` absent or empty or its lowercase a
substring of the lowercased title, description or location, and `type` absent or empty or the
record's type equal to its lowercase. -/
theorem list_returns_exactly_matching_records (items : List Item) (q type : Option String)
    (hwf : ∀ s, q = some s → s ≠ "" → ∀ r ∈ items, r.hasTextFields = true) :
    listItems items { q := .ofParam q, type := .ofParam type } =
      .ok { status := 200, body := .items (items.filter (specSelects q type)) } :=
  listItems_ofParam items q type hwf

/-- C1, amended, at the seed records with `q=WALLET` and `type=Lost`. -/
theorem list_returns_exactly_matching_records_witness :
    (∀ s, some "WALLET" = some s → s ≠ "" → ∀ r ∈ mockItems, r.hasTextFields = true) ∧
    listItems mockItems { q := .ofParam (some "WALLET"), type := .ofParam (some "Lost") } =
      .ok { status := 200,
            body := .items (mockItems.filter (specSelects (some "WALLET") (some "Lost"))) } :=
  ⟨fun _ _ _ => by decide,
   list_returns_exactly_matching_records mockItems (some "WALLET") (some "Lost")
     (fun _ _ _ => by decide)⟩

/-! ## Id assignment on create -/

/-- C2: a create request is answered 201 with a record whose id is 1 when the collection is
empty and otherwise one more than the greatest id in the collection, whatever the form
contains. -/
theorem create_assigns_max_id_plus_one (items : List Item) (clock : Clock)
    (req : CreateRequest) :
    ∃ r, (createItem items clock req).2 = { status := 201, body := .item r } ∧
      (items = [] → r.id = 1) ∧
      (items ≠ [] → ∃ m ∈ items, (∀ i ∈ items, i.id ≤ m.id) ∧ r.id = m.id + 1) := by
  refine ⟨newItem items clock req, rfl, ?_, ?_⟩
  · intro h
    subst h
    rfl
  · intro hne
    obtain ⟨⟨m, hm, hid⟩, hlt⟩ := nextId_spec items hne
    refine ⟨m, hm, ?_, hid⟩
    intro i hi
    have := hlt i hi
    omega

/-! ## The collection changes by insertion only -/

/-- C3: the list and get-by-id handlers leave the collection as it is; a create request keeps
the stored records in place and appends exactly one record, which is the record of the 201
response and carries the submitted type, title, description, location and contact. -/
theorem collection_changes_by_append_only (items : List Item) :
    (∀ query, (handle items (.list query)).1 = items) ∧
    (∀ idParam, (handle items (.get idParam)).1 = items) ∧
    (∀ clock req, ∃ r,
      (handle items (.create clock req)).1 = items ++ [r] ∧
      (handle items (.create clock req)).2 = .ok { status := 201, body := .item r } ∧
      r.type = req.body.type ∧ r.title = req.body.title ∧
      r.description = req.body.description ∧ r.location = req.body.location ∧
      r.contact = req.body.contact) :=
  ⟨fun _ => rfl, fun _ => rfl,
   fun clock req => ⟨newItem items clock req, rfl, rfl, rfl, rfl, rfl, rfl, rfl⟩⟩

/-! ## Ids stay distinct and increasing -/

theorem idsIncreasing_seed : IdsIncreasing mockItems := by
  simp [IdsIncreasing, mockItems]

theorem idsIncreasing_create (items : List Item) (clock : Clock) (req : CreateRequest)
    (h : IdsIncreasing items) : IdsIncreasing (createItem items clock req).1 := by
  show List.Pairwise _ (items ++ [newItem items clock req])
  refine List.pairwise_append.2 ⟨h, List.pairwise_singleton _ _, ?_⟩
  intro a ha b hb
  rw [List.mem_singleton.1 hb]
  have hne : items ≠ [] := List.ne_nil_of_mem ha
  exact (nextId_spec items hne).2 a ha

theorem idsIncreasing_handle (items : List Item) (r : Request) (h : IdsIncreasing items) :
    IdsIncreasing (handle items r).1 := by
  cases r with
  | list query => exact h
  | get idParam => exact h
  | create clock req => exact idsIncreasing_create items clock req h

theorem idsIncreasing_of_reachable (items : List Item) (h : Reachable items) :
    IdsIncreasing items := by
  induction h with
  | seed => exact idsIncreasing_seed
  | step items r _ ih => exact idsIncreasing_handle items r ih

/-- C4: in every state reachable from the seed records by list, get-by-id and create requests
the ids are pairwise distinct, non-decreasing along the collection, and in fact each record's
id is greater than the id of every record before it. -/
theorem reachable_ids_distinct_and_increasing (items : List Item) (h : Reachable items) :
    (items.map (fun i => i.id)).Nodup ∧
    items.Pairwise (fun a b => a.id ≤ b.id) ∧
    items.Pairwise (fun a b => a.id < b.id) := by
  have hinc := idsIncreasing_of_reachable items h
  refine ⟨?_, ?_, hinc⟩
  · rw [List.Nodup, List.pairwise_map]
    exact hinc.imp (fun hab => ne_of_lt hab)
  · exact hinc.imp (fun hab => le_of_lt hab)

/-- C4 at the state after one create request on the seed records. -/
theorem reachable_ids_distinct_and_increasing_witness :
    Reachable (handle mockItems (.create sampleClock redScarf)).1 ∧
    ((handle mockItems (.create sampleClock redScarf)).1.map (fun i => i.id)).Nodup ∧
    (handle mockItems (.create sampleClock redScarf)).1.Pairwise (fun a b => a.id ≤ b.id) ∧
    (handle mockItems (.create sampleClock redScarf)).1.Pairwise (fun a b => a.id < b.id) :=
  ⟨.step _ _ .seed, reachable_ids_distinct_and_increasing _ (.step _ _ .seed)⟩

/-! ## Get by id -/

/-- C5: when the path parameter parses to the integer `n`, `GET /api/items/:id` answers 200 with
the (first) record whose id is `n` if the collection has one, and 404 with the body
`{message: "Item not found"}` if no record has id `n`. -/
theorem getItem_found_or_not_found (items : List Item) (idParam : String) (n : Int)
    (hparse : parseInt idParam = some n) :
    ((∃ r ∈ items, r.id = n) →
      ∃ r, items.find? (fun i => decide (i.id = n)) = some r ∧ r ∈ items ∧ r.id = n ∧
        getItem items idParam = { status := 200, body := .item r }) ∧
    ((∀ r ∈ items, r.id ≠ n) →
      getItem items idParam = { status := 404, body := .message "Item not found" }) := by
  have hfun : idEquals (some n) = fun i => decide (i.id = n) := rfl
  constructor
  · rintro ⟨r, hr, hrn⟩
    cases hfind : items.find? (fun i => decide (i.id = n)) with
    | none =>
      have := List.find?_eq_none.1 hfind r hr
      simp [hrn] at this
    | some r0 =>
      refine ⟨r0, rfl, List.mem_of_find?_eq_some hfind, ?_, ?_⟩
      · simpa using List.find?_some hfind
      · simp [getItem, hparse, hfun, hfind]
  · intro hnone
    have hfind : items.find? (fun i => decide (i.id = n)) = none := by
      rw [List.find?_eq_none]
      intro x hx
      simpa using hnone x hx
    simp [getItem, hparse, hfun, hfind]

/-- C5 at the seed records: no record has id 999999. -/
theorem getItem_found_or_not_found_witness :
    parseInt "999999" = some 999999 ∧
    getItem mockItems "999999" = { status := 404, body := .message "Item not found" } :=
  ⟨by decide,
   (getItem_found_or_not_found mockItems "999999" 999999 (by decide)).2 (by decide)⟩


/-! ## The date of a created record -/

theorem sliceTo_append_left (ymd rest : String) (n : Nat) (hlen : ymd.length = n) :
    sliceTo (ymd ++ rest) n = ymd := by
  have h : ymd.data.length = n := hlen
  simp [sliceTo, String.data_append, ← h]

/-- C6: the date of a created record is the first ten characters of the ISO-8601 timestamp the
server clock gives in the handler, which is the `YYYY-MM-DD` part of a timestamp that starts
with ten date characters; the outcome of the request does not depend on the `date` form field:
replacing it by any other value, or removing it, gives the same collection and response. -/
theorem create_date_is_server_date (items : List Item) (clock : Clock) (req : CreateRequest) :
    (∃ r, (createItem items clock req).2 = { status := 201, body := .item r } ∧
      r.date = .str (sliceTo clock.isoNow 10) ∧
      ∀ ymd rest : String, clock.isoNow = ymd ++ rest → ymd.length = 10 → r.date = .str ymd) ∧
    ∀ d : JsVal,
      createItem items clock { req with body := { req.body with date := d } } =
        createItem items clock req := by
  refine ⟨⟨newItem items clock req, rfl, rfl, ?_⟩, fun d => rfl⟩
  intro ymd rest hiso hlen
  show JsVal.str (sliceTo clock.isoNow 10) = JsVal.str ymd
  rw [hiso, sliceTo_append_left ymd rest 10 hlen]

/-- C6 at the sample clock: the date is `2025-08-16` although the form says `1999-01-01`. -/
theorem create_date_is_server_date_witness :
    ∃ r, (createItem mockItems sampleClock
        { redScarf with body := { redScarf.body with date := .str "1999-01-01" } }).2 =
          { status := 201, body := .item r } ∧
      r.date = .str "2025-08-16" := by
  obtain ⟨⟨r, hres, _, hymd⟩, hdate⟩ := create_date_is_server_date mockItems sampleClock redScarf
  exact ⟨r, (congrArg Prod.snd (hdate (.str "1999-01-01"))).trans hres,
    hymd "2025-08-16" "T08:00:00.000Z" (by decide) (by decide)⟩

/-! ## The image of a created record -/

/-- C7, as stated, fails on the Red Scarf request: no file is sent, the response is 201, and the
image of the created record is absent (`undefined`), not `null`. -/
theorem create_without_file_image_not_null :
    redScarf.file = none ∧
    (createItem mockItems sampleClock redScarf).2 =
      { status := 201,
        body := .item { id := 5, type := .str "found", title := .str "Red Scarf",
                        description := .str "Found at gate 3", location := .str "Airport",
                        date := .str "2025-08-16", contact := .undefined,
                        image := .undefined, extra := [] } } ∧
    JsVal.undefined ≠ JsVal.null := by
  decide

/-- C7, amended: a create request without a file is answered 201 and the image of the created
record is the `image` field of the submitted form, unchanged; it is absent when the form has
none. -/
theorem create_without_file_keeps_form_image (items : List Item) (clock : Clock)
    (req : CreateRequest) (hfile : req.file = none) :
    ∃ r, (createItem items clock req).2 = { status := 201, body := .item r } ∧
      r.image = req.body.image ∧
      (req.body.image = .undefined → r.image = .undefined) := by
  refine ⟨newItem items clock req, rfl, ?_, ?_⟩
  · simp [newItem, hfile]
  · intro h
    simp [newItem, hfile, h]

/-- C7, amended, at the Red Scarf request. -/
theorem create_without_file_keeps_form_image_witness :
    redScarf.file = none ∧
    ∃ r, (createItem mockItems sampleClock redScarf).2 = { status := 201, body := .item r } ∧
      r.image = redScarf.body.image ∧
      (redScarf.body.image = .undefined → r.image = .undefined) :=
  ⟨rfl, create_without_file_keeps_form_image mockItems sampleClock redScarf rfl⟩

/-- C8: when a file is uploaded the image of the created record is `/uploads/` followed by the
stored name of the file, which is the millisecond timestamp, a hyphen and the original name;
an `image` form field has no influence on the outcome. -/
theorem create_with_file_image_path (items : List Item) (clock : Clock) (req : CreateRequest)
    (file : UploadedFile) (hfile : req.file = some file) :
    (∃ r, (createItem items clock req).2 = { status := 201, body := .item r } ∧
      r.image = .str ("/uploads/" ++ storageFilename clock.dateNow file) ∧
      storageFilename clock.dateNow file = toString clock.dateNow ++ "-" ++ file.originalname) ∧
    ∀ img : JsVal,
      createItem items clock { req with body := { req.body with image := img } } =
        createItem items clock req := by
  refine ⟨⟨newItem items clock req, rfl, ?_, rfl⟩, fun img => ?_⟩
  · simp [newItem, hfile]
  · simp [createItem, newItem, hfile]

/-- C8 at a Red Scarf request that carries `scarf.png` and an `image` form field. -/
theorem create_with_file_image_path_witness :
    ∃ r, (createItem mockItems sampleClock
        { body := { redScarf.body with image := .str "mine.png" },
          file := some { originalname := "scarf.png" } }).2 =
          { status := 201, body := .item r } ∧
      r.image = .str "/uploads/1755331200000-scarf.png" := by
  obtain ⟨⟨r, hres, himg, _⟩, _⟩ := create_with_file_image_path mockItems sampleClock
    { body := { redScarf.body with image := .str "mine.png" },
      file := some { originalname := "scarf.png" } } { originalname := "scarf.png" } rfl
  exact ⟨r, hres, himg.trans (by decide)⟩


/-! ## Filtering by type -/

theorem listItems_type_only (items : List Item) (t : String) (ht : t ≠ "") :
    listItems items { q := .undefined, type := .str t } =
      .ok { status := 200,
            body := .items (items.filter (fun r => decide (r.type = .str (toLowerCase t)))) } := by
  have h := listItems_ofParam items none (some t) (fun s hs => by cases hs)
  have hb : (t == "") = false := by simpa using ht
  have hp : specSelects none (some t) = fun r => decide (r.type = .str (toLowerCase t)) := by
    funext r
    simp [specSelects, specSearchOk, specTypeOk, hb]
  rw [hp] at h
  exact h

theorem filter_lost_found_perm (items : List Item) :
    (items.filter isLost ++ items.filter isFound).Perm
      (items.filter (fun r => isLost r || isFound r)) := by
  induction items with
  | nil => simp
  | cons x xs ih =>
    by_cases hl : x.type = .str "lost"
    · have h1 : isLost x = true := by simp [isLost, hl]
      have h2 : isFound x = false := by simp [isFound, hl]
      simp only [List.filter_cons, h1, h2, Bool.true_or, if_true, Bool.false_eq_true, if_false,
        List.cons_append]
      exact ih.cons x
    · have h1 : isLost x = false := by simp [isLost, hl]
      by_cases hf : x.type = .str "found"
      · have h2 : isFound x = true := by simp [isFound, hf]
        simp only [List.filter_cons, h1, h2, Bool.or_true, if_true, Bool.false_eq_true, if_false]
        exact List.perm_middle.trans (ih.cons x)
      · have h2 : isFound x = false := by simp [isFound, hf]
        simp only [List.filter_cons, h1, h2, Bool.or_false, Bool.false_eq_true, if_false]
        exact ih

/-- C9, as stated, fails after one create request on the seed records: the record created
with type `stolen` is in the unfiltered list and in neither of the two type queries. -/
theorem type_queries_miss_other_types :
    ReachableByCreate (createItem mockItems sampleClock stolenBike).1 ∧
    ∃ lost found all r,
      listItems (createItem mockItems sampleClock stolenBike).1
        { q := .undefined, type := .str "lost" } = .ok { status := 200, body := .items lost } ∧
      listItems (createItem mockItems sampleClock stolenBike).1
        { q := .undefined, type := .str "found" } = .ok { status := 200, body := .items found } ∧
      listItems (createItem mockItems sampleClock stolenBike).1
        { q := .undefined, type := .undefined } = .ok { status := 200, body := .items all } ∧
      r ∈ all ∧ r ∉ lost ∧ r ∉ found :=
  ⟨.create _ _ _ .seed,
   (createItem mockItems sampleClock stolenBike).1.filter isLost,
   (createItem mockItems sampleClock stolenBike).1.filter isFound,
   (createItem mockItems sampleClock stolenBike).1,
   newItem mockItems sampleClock stolenBike,
   rfl, rfl, rfl, by decide, by decide, by decide⟩

/-- C9, amended: on every collection, in particular every one reachable from the seed records
by create requests, `type=lost` returns exactly the records whose type is `lost` and
`type=found` exactly those whose type is `found`, no record is returned by both, and the two
results together are exactly the records of the unfiltered list whose type is `lost` or
`found`. -/
theorem type_queries_partition_lost_and_found (items : List Item) :
    ∃ lost found all,
      listItems items { q := .undefined, type := .str "lost" } =
        .ok { status := 200, body := .items lost } ∧
      listItems items { q := .undefined, type := .str "found" } =
        .ok { status := 200, body := .items found } ∧
      listItems items { q := .undefined, type := .undefined } =
        .ok { status := 200, body := .items all } ∧
      all = items ∧
      (∀ r, r ∈ lost ↔ r ∈ all ∧ r.type = .str "lost") ∧
      (∀ r, r ∈ found ↔ r ∈ all ∧ r.type = .str "found") ∧
      (∀ r, r ∈ lost → r ∉ found) ∧
      (lost ++ found).Perm
        (all.filter (fun r => decide (r.type = .str "lost") || decide (r.type = .str "found"))) := by
  have hl : toLowerCase "lost" = "lost" := by decide
  have hf : toLowerCase "found" = "found" := by decide
  refine ⟨items.filter isLost, items.filter isFound, items, ?_, ?_, rfl, rfl, ?_, ?_, ?_, ?_⟩
  · rw [listItems_type_only items "lost" (by decide), hl]
    rfl
  · rw [listItems_type_only items "found" (by decide), hf]
    rfl
  · intro r
    simp [isLost, List.mem_filter]
  · intro r
    simp [isFound, List.mem_filter]
  · intro r hr hr2
    have h1 := (List.mem_filter.1 hr).2
    have h2 := (List.mem_filter.1 hr2).2
    simp only [isLost, isFound, decide_eq_true_eq] at h1 h2
    rw [h1] at h2
    exact absurd h2 (by decide)
  · exact filter_lost_found_perm items

/-! ## Outcomes of the list endpoint -/

/-- C10, as stated, fails in two ways: on the seed records a repeated `q` (which the query
parser turns into an array) makes the handler throw instead of answering 200; and after a
create request without a description a plain string `q` makes it throw as well. -/
theorem list_throws_on_non_strings :
    listItems mockItems { q := .arr ["wallet", "keys"], type := .undefined } =
      .error .typeError ∧
    ReachableByCreate (createItem mockItems sampleClock undescribed).1 ∧
    listItems (createItem mockItems sampleClock undescribed).1
      { q := .str "airport", type := .undefined } = .error .typeError :=
  ⟨rfl, .create _ _ _ .seed, rfl⟩

/-- C10, amended: for `q` and `type` each absent, empty or a string, and a collection whose
records have string title, description and location whenever `q` is a non-empty string, the
list handler completes with status 200 and an array of records of the collection in collection
order; an absent or empty parameter is no filter, and when neither filter applies the array is
the entire collection. -/
theorem list_completes_on_string_parameters (items : List Item) (q type : Option String)
    (hwf : ∀ s, q = some s → s ≠ "" → ∀ r ∈ items, r.hasTextFields = true) :
    ∃ xs, listItems items { q := .ofParam q, type := .ofParam type } =
        .ok { status := 200, body := .items xs } ∧
      xs.Sublist items ∧
      ((q = none ∨ q = some "") →
        xs = items.filter (specTypeOk type)) ∧
      ((type = none ∨ type = some "") →
        xs = items.filter (specSearchOk q)) ∧
      ((q = none ∨ q = some "") → (type = none ∨ type = some "") → xs = items) := by
  have hq : (q = none ∨ q = some "") → specSearchOk q = fun _ => true := by
    rintro (h | h) <;> subst h <;> funext r <;> simp [specSearchOk]
  have ht : (type = none ∨ type = some "") → specTypeOk type = fun _ => true := by
    rintro (h | h) <;> subst h <;> funext r <;> simp [specTypeOk]
  refine ⟨items.filter (specSelects q type), listItems_ofParam items q type hwf,
    List.filter_sublist _, ?_, ?_, ?_⟩
  · intro h
    congr 1
    funext r
    simp [specSelects, hq h]
  · intro h
    congr 1
    funext r
    simp [specSelects, ht h]
  · intro h1 h2
    have : specSelects q type = fun _ => true := by
      funext r
      simp [specSelects, hq h1, ht h2]
    simp [this]

/-- C10, amended, at the seed records with `q=park` and an empty `type`. -/
theorem list_completes_on_string_parameters_witness :
    (∀ s, some "park" = some s → s ≠ "" → ∀ r ∈ mockItems, r.hasTextFields = true) ∧
    ∃ xs, listItems mockItems { q := .ofParam (some "park"), type := .ofParam (some "") } =
        .ok { status := 200, body := .items xs } ∧ xs.Sublist mockItems :=
  ⟨fun _ _ _ => by decide,
   (list_completes_on_string_parameters mockItems (some "park") (some "")
     (fun _ _ _ => by decide)).imp (fun _ h => ⟨h.1, h.2.1⟩)⟩


/-! ## Path parameters that are not numerals -/

theorem parseInt_eq_none_iff (s : String) : parseInt s = none ↔ startsWithDigit s = false := by
  unfold parseInt startsWithDigit
  generalize s.data.dropWhile isStrWhiteSpaceChar = trimmed
  have hsnd : (match trimmed with
      | '-' :: rest => ((-1 : Int), rest)
      | '+' :: rest => (1, rest)
      | other => (1, other)).2 =
      (match trimmed with
      | '-' :: rest => rest
      | '+' :: rest => rest
      | other => other) := by
    split <;> rfl
  simp only [hsnd]
  generalize (match trimmed with
      | '-' :: rest => rest
      | '+' :: rest => rest
      | other => other) = unsigned
  cases unsigned with
  | nil => simp
  | cons c cs =>
    by_cases hc : c.isDigit = true <;> simp [List.takeWhile, hc]

/-- C11, as stated, fails on the seed records: the path parameter `4abc` is not a decimal
integer numeral, yet it parses to 4 and the handler answers 200 with the record of id 4. -/
theorem getItem_returns_record_for_non_numeral :
    isDecimalNumeral "4abc" = false ∧
    parseInt "4abc" = some 4 ∧
    ∃ r ∈ mockItems, r.id = 4 ∧
      getItem mockItems "4abc" = { status := 200, body := .item r } := by
  decide

/-! ## The submit handler of the Post view -/

/-- C12: `handleSubmit` makes the create request exactly when title, description and location
are all non-empty, and then it is the POST of the form to `/api/items`; when one of the three
is empty it makes no request, leaves the state of the component as it is and shows the
`Please fill out all required fields.` alert; type, contact and the image play no part in the
decision. -/
theorem handleSubmit_presence_validation (page : PostItemPage) (outcome : FetchOutcome) :
    (issuesRequest (handleSubmit page outcome).2 = true ↔
      page.formData.title ≠ "" ∧ page.formData.description ≠ "" ∧
        page.formData.location ≠ "") ∧
    (page.formData.title ≠ "" ∧ page.formData.description ≠ "" ∧ page.formData.location ≠ "" →
      Effect.fetch "http://localhost:3001/api/items" "POST" (submission page.formData) ∈
        (handleSubmit page outcome).2) ∧
    (page.formData.title = "" ∨ page.formData.description = "" ∨ page.formData.location = "" →
      handleSubmit page outcome =
        (page, [.preventDefault, .alert "Please fill out all required fields."])) ∧
    (∀ (type contact : String) (imageFile : Option ImageFile) (preview : Option String),
      issuesRequest (handleSubmit
        { formData := { page.formData with type := type, contact := contact,
                                           imageFile := imageFile },
          imagePreview := preview } outcome).2 =
        issuesRequest (handleSubmit page outcome).2) := by
  by_cases ht : page.formData.title = "" <;>
    by_cases hd : page.formData.description = "" <;>
    by_cases hl : page.formData.location = "" <;>
    cases outcome <;>
    simp [handleSubmit, issuesRequest, ht, hd, hl]

/-- C12 at a form with an empty description: no request, state unchanged, the alert. -/
theorem handleSubmit_presence_validation_witness :
    handleSubmit
      { formData := { emptyForm with title := "Red Scarf", location := "Airport" },
        imagePreview := none } .ok =
      ({ formData := { emptyForm with title := "Red Scarf", location := "Airport" },
         imagePreview := none },
       [.preventDefault, .alert "Please fill out all required fields."]) :=
  (handleSubmit_presence_validation
    { formData := { emptyForm with title := "Red Scarf", location := "Airport" },
      imagePreview := none } .ok).2.2.1 (Or.inr (Or.inl rfl))

/-! ## Stored names of uploaded files -/

theorem digitChar_spec (k : Nat) (hk : k < 10) :
    (Nat.digitChar k).isDigit = true ∧ (Nat.digitChar k).toNat - 48 = k := by
  interval_cases k <;> decide

theorem digitsValue_append (xs : List Char) (c : Char) :
    digitsValue (xs ++ [c]) = 10 * digitsValue xs + (c.toNat - 48) := by
  simp [digitsValue, List.foldl_append]

theorem toDigitsCore_spec (fuel : Nat) : ∀ (n : Nat) (ds : List Char), n < fuel →
    ∃ xs, Nat.toDigitsCore 10 fuel n ds = xs ++ ds ∧ (∀ c ∈ xs, c.isDigit = true) ∧
      digitsValue xs = n := by
  induction fuel with
  | zero => intro n ds h; omega
  | succ fuel ih =>
    intro n ds hn
    obtain ⟨hdig, hval⟩ := digitChar_spec (n % 10) (Nat.mod_lt _ (by decide))
    by_cases h0 : n / 10 = 0
    · refine ⟨[Nat.digitChar (n % 10)], ?_, ?_, ?_⟩
      · simp [Nat.toDigitsCore, h0]
      · intro c hc
        rw [List.mem_singleton.1 hc]
        exact hdig
      · have : digitsValue [Nat.digitChar (n % 10)] = (Nat.digitChar (n % 10)).toNat - 48 := by
          simp [digitsValue]
        rw [this, hval]
        omega
    · obtain ⟨xs, hxs, hall, hv⟩ := ih (n / 10) (Nat.digitChar (n % 10) :: ds) (by omega)
      refine ⟨xs ++ [Nat.digitChar (n % 10)], ?_, ?_, ?_⟩
      · simp [Nat.toDigitsCore, h0, hxs]
      · intro c hc
        rcases List.mem_append.1 hc with h | h
        · exact hall c h
        · rw [List.mem_singleton.1 h]
          exact hdig
      · rw [digitsValue_append, hv, hval]
        omega

theorem toString_nat_spec (n : Nat) :
    ∃ xs, (toString (n : Int)).data = xs ∧ (∀ c ∈ xs, c.isDigit = true) ∧
      digitsValue xs = n := by
  obtain ⟨xs, hxs, hall, hv⟩ := toDigitsCore_spec (n + 1) n [] (by omega)
  refine ⟨xs, ?_, hall, hv⟩
  show (Nat.repr n).data = xs
  simp [Nat.repr, Nat.toDigits, hxs, List.asString]

theorem split_at_hyphen (xs : List Char) : ∀ (ys r s : List Char),
    (∀ c ∈ xs, c.isDigit = true) → (∀ c ∈ ys, c.isDigit = true) →
    xs ++ '-' :: r = ys ++ '-' :: s → xs = ys ∧ r = s := by
  induction xs with
  | nil =>
    intro ys r s _ hys h
    cases ys with
    | nil => simpa using h
    | cons y ys =>
      simp only [List.nil_append, List.cons_append, List.cons.injEq] at h
      have := hys y (List.mem_cons_self _ _)
      rw [← h.1] at this
      exact absurd this (by decide)
  | cons x xs ih =>
    intro ys r s hxs hys h
    cases ys with
    | nil =>
      simp only [List.nil_append, List.cons_append, List.cons.injEq] at h
      have := hxs x (List.mem_cons_self _ _)
      rw [h.1] at this
      exact absurd this (by decide)
    | cons y ys =>
      simp only [List.cons_append, List.cons.injEq] at h
      obtain ⟨h1, h2⟩ := ih ys r s (fun c hc => hxs c (List.mem_cons_of_mem _ hc))
        (fun c hc => hys c (List.mem_cons_of_mem _ hc)) h.2
      exact ⟨by rw [h.1, h1], h2⟩

/-- C13: the stored name is a function of the timestamp and the original name, and on
non-negative timestamps it is injective: two uploads get the same stored name exactly when
they have the same timestamp and the same original name. -/
theorem storageFilename_eq_iff (t t' : Int) (ht : 0 ≤ t) (ht' : 0 ≤ t')
    (f f' : UploadedFile) :
    storageFilename t f = storageFilename t' f' ↔
      t = t' ∧ f.originalname = f'.originalname := by
  constructor
  · intro h
    obtain ⟨n, rfl⟩ := Int.eq_ofNat_of_zero_le ht
    obtain ⟨m, rfl⟩ := Int.eq_ofNat_of_zero_le ht'
    obtain ⟨xs, hxs, hallx, hvx⟩ := toString_nat_spec n
    obtain ⟨ys, hys, hally, hvy⟩ := toString_nat_spec m
    have hdata := congrArg String.data h
    simp only [storageFilename, String.data_append, hxs, hys, List.append_assoc] at hdata
    obtain ⟨h1, h2⟩ := split_at_hyphen xs ys _ _ hallx hally hdata
    refine ⟨?_, String.ext h2⟩
    have : n = m := by rw [← hvx, ← hvy, h1]
    rw [this]
  · rintro ⟨h1, h2⟩
    simp [storageFilename, h1, h2]

/-- C13 at two uploads of `1-a.png` and `a.png` one millisecond apart. -/
theorem storageFilename_eq_iff_witness :
    (0 : Int) ≤ 1755331200000 ∧ (0 : Int) ≤ 1755331200001 ∧
    (storageFilename 1755331200000 { originalname := "1-a.png" } =
        storageFilename 1755331200001 { originalname := "a.png" } ↔
      (1755331200000 : Int) = 1755331200001 ∧
        ({ originalname := "1-a.png" } : UploadedFile).originalname =
          ({ originalname := "a.png" } : UploadedFile).originalname) :=
  ⟨by decide, by decide,
   storageFilename_eq_iff 1755331200000 1755331200001 (by decide) (by decide)
     { originalname := "1-a.png" } { originalname := "a.png" }⟩


/-! ## Path parameters with and without a leading numeral -/

theorem digit_range (c : Char) (h : c.isDigit = true) : 48 ≤ c.toNat ∧ c.toNat ≤ 57 := by
  simp only [Char.isDigit, Bool.and_eq_true, decide_eq_true_eq] at h
  obtain ⟨h1, h2⟩ := h
  have h1' : (48 : UInt32).toNat ≤ c.val.toNat := h1
  have h2' : c.val.toNat ≤ (57 : UInt32).toNat := h2
  exact ⟨h1', h2'⟩

theorem not_whiteSpace_of_range (c : Char) (h : 43 ≤ c.toNat ∧ c.toNat ≤ 57) :
    isStrWhiteSpaceChar c = false := by
  simp only [isStrWhiteSpaceChar, Bool.or_eq_false_iff, beq_eq_false_iff_ne,
    Bool.and_eq_false_iff, decide_eq_false_iff_not]
  omega

theorem dropWhile_whiteSpace_append (ws : List Char) (c : Char) (cs : List Char)
    (hws : ∀ x ∈ ws, isStrWhiteSpaceChar x = true) (hc : isStrWhiteSpaceChar c = false) :
    (ws ++ c :: cs).dropWhile isStrWhiteSpaceChar = c :: cs := by
  induction ws with
  | nil => simp [List.dropWhile, hc]
  | cons w ws ih =>
    have hw := hws w (List.mem_cons_self _ _)
    simp only [List.cons_append, List.dropWhile, hw]
    exact ih (fun x hx => hws x (List.mem_cons_of_mem _ hx))

theorem takeWhile_digits_append (digits rest : List Char)
    (hd : ∀ c ∈ digits, c.isDigit = true)
    (hr : ∀ c, rest.head? = some c → c.isDigit = false) :
    (digits ++ rest).takeWhile Char.isDigit = digits := by
  induction digits with
  | nil =>
    cases rest with
    | nil => rfl
    | cons r rs => simp [List.takeWhile, hr r rfl]
  | cons d ds ih =>
    have := hd d (List.mem_cons_self _ _)
    simp only [List.cons_append, List.takeWhile, this]
    exact congrArg (List.cons d) (ih (fun c hc => hd c (List.mem_cons_of_mem _ hc)))

theorem parseInt_unsigned (ws digits rest : List Char)
    (hws : ∀ x ∈ ws, isStrWhiteSpaceChar x = true) (hne : digits ≠ [])
    (hd : ∀ c ∈ digits, c.isDigit = true)
    (hr : ∀ c, rest.head? = some c → c.isDigit = false) :
    parseInt ⟨ws ++ digits ++ rest⟩ = some (digitsValue digits : Int) := by
  cases digits with
  | nil => exact absurd rfl hne
  | cons d ds =>
    have hdd := hd d (List.mem_cons_self _ _)
    have hrange := digit_range d hdd
    have hdrop : (ws ++ (d :: ds) ++ rest).dropWhile isStrWhiteSpaceChar
        = d :: (ds ++ rest) := by
      rw [List.append_assoc]
      exact dropWhile_whiteSpace_append ws d (ds ++ rest) hws
        (not_whiteSpace_of_range d (by omega))
    have htake := takeWhile_digits_append (d :: ds) rest hd hr
    have hminus : d ≠ '-' := by
      intro h
      rw [h] at hdd
      exact absurd hdd (by decide)
    have hplus : d ≠ '+' := by
      intro h
      rw [h] at hdd
      exact absurd hdd (by decide)
    have hmatch : (match d :: (ds ++ rest) with
        | '-' :: rest => ((-1 : Int), rest)
        | '+' :: rest => (1, rest)
        | other => (1, other)) = (1, d :: ds ++ rest) := by
      split
      · rename_i h
        exact absurd (List.cons.inj h).1 hminus
      · rename_i h
        exact absurd (List.cons.inj h).1 hplus
      · rfl
    unfold parseInt
    simp only [hdrop, hmatch, htake]
    simp

theorem parseInt_minus (ws digits rest : List Char)
    (hws : ∀ x ∈ ws, isStrWhiteSpaceChar x = true) (hne : digits ≠ [])
    (hd : ∀ c ∈ digits, c.isDigit = true)
    (hr : ∀ c, rest.head? = some c → c.isDigit = false) :
    parseInt ⟨ws ++ ['-'] ++ digits ++ rest⟩ = some (-(digitsValue digits : Int)) := by
  have hdrop : (ws ++ ['-'] ++ digits ++ rest).dropWhile isStrWhiteSpaceChar
      = '-' :: (digits ++ rest) := by
    have := dropWhile_whiteSpace_append ws '-' (digits ++ rest) hws (by decide)
    simpa using this
  have htake := takeWhile_digits_append digits rest hd hr
  unfold parseInt
  simp only [hdrop, htake]
  cases digits with
  | nil => exact absurd rfl hne
  | cons d ds => simp

theorem parseInt_plus (ws digits rest : List Char)
    (hws : ∀ x ∈ ws, isStrWhiteSpaceChar x = true) (hne : digits ≠ [])
    (hd : ∀ c ∈ digits, c.isDigit = true)
    (hr : ∀ c, rest.head? = some c → c.isDigit = false) :
    parseInt ⟨ws ++ ['+'] ++ digits ++ rest⟩ = some (digitsValue digits : Int) := by
  have hdrop : (ws ++ ['+'] ++ digits ++ rest).dropWhile isStrWhiteSpaceChar
      = '+' :: (digits ++ rest) := by
    have := dropWhile_whiteSpace_append ws '+' (digits ++ rest) hws (by decide)
    simpa using this
  have htake := takeWhile_digits_append digits rest hd hr
  unfold parseInt
  simp only [hdrop, htake]
  cases digits with
  | nil => exact absurd rfl hne
  | cons d ds => simp

theorem parseInt_leading_numeral (ws sign digits rest : List Char)
    (hws : ∀ x ∈ ws, isStrWhiteSpaceChar x = true)
    (hsign : sign = [] ∨ sign = ['+'] ∨ sign = ['-']) (hne : digits ≠ [])
    (hd : ∀ c ∈ digits, c.isDigit = true)
    (hr : ∀ c, rest.head? = some c → c.isDigit = false) :
    parseInt ⟨ws ++ sign ++ digits ++ rest⟩ =
      some ((if sign = ['-'] then -1 else 1) * (digitsValue digits : Int)) := by
  rcases hsign with h | h | h
  · subst h
    have := parseInt_unsigned ws digits rest hws hne hd hr
    simpa using this
  · subst h
    have := parseInt_plus ws digits rest hws hne hd hr
    simpa using this
  · subst h
    have := parseInt_minus ws digits rest hws hne hd hr
    simpa using this

theorem digitsValue_toString (k : Nat) : digitsValue (toString k).data = k := by
  obtain ⟨xs, hxs, _, hv⟩ := toString_nat_spec k
  have h : (toString k).data = xs := hxs
  rw [h, hv]

theorem getItem_of_parseInt (items : List Item) (idParam : String) (n : Int)
    (hparse : parseInt idParam = some n) :
    ((∃ r ∈ items, r.id = n) →
      ∃ r, items.find? (fun i => decide (i.id = n)) = some r ∧ r ∈ items ∧ r.id = n ∧
        getItem items idParam = { status := 200, body := .item r }) ∧
    ((∀ r ∈ items, r.id ≠ n) →
      getItem items idParam = { status := 404, body := .message "Item not found" }) := by
  have hfun : idEquals (some n) = fun i => decide (i.id = n) := rfl
  constructor
  · rintro ⟨r, hr, hrn⟩
    cases hfind : items.find? (fun i => decide (i.id = n)) with
    | none =>
      have := List.find?_eq_none.1 hfind r hr
      simp [hrn] at this
    | some r0 =>
      refine ⟨r0, rfl, List.mem_of_find?_eq_some hfind, ?_, ?_⟩
      · simpa using List.find?_some hfind
      · simp [getItem, hparse, hfun, hfind]
  · intro hnone
    have hfind : items.find? (fun i => decide (i.id = n)) = none := by
      rw [List.find?_eq_none]
      intro x hx
      simpa using hnone x hx
    simp [getItem, hparse, hfun, hfind]

/-- C11, amended: for every item collection, (1) an id path parameter in which no decimal
digit follows the leading white space and the optional sign parses to `NaN`, which equals no
record's id, and is answered 404 with `{message: "Item not found"}`, never a record; (2) an id
path parameter made of white space, an optional sign, a non-empty run of decimal digits and a
rest that does not start with a digit parses to the value of that run (negated after a minus
sign; the run printed for `k` has value `k`) and is looked up under it whatever the rest is:
200 with the first record of that id, 404 when no record has it. -/
theorem getItem_by_leading_numeral (items : List Item) (idParam : String) :
    (startsWithDigit idParam = false →
      parseInt idParam = none ∧
      (∀ r ∈ items, idEquals (parseInt idParam) r = false) ∧
      getItem items idParam = { status := 404, body := .message "Item not found" }) ∧
    (∀ (ws sign digits rest : List Char) (n : Int),
      idParam = ⟨ws ++ sign ++ digits ++ rest⟩ →
      (∀ c ∈ ws, isStrWhiteSpaceChar c = true) →
      (sign = [] ∨ sign = ['+'] ∨ sign = ['-']) →
      digits ≠ [] →
      (∀ c ∈ digits, c.isDigit = true) →
      (∀ c, rest.head? = some c → c.isDigit = false) →
      n = (if sign = ['-'] then -1 else 1) * (digitsValue digits : Int) →
      parseInt idParam = some n ∧
      (∀ k : Nat, digits = (toString k).data →
        n = (if sign = ['-'] then -1 else 1) * (k : Int)) ∧
      ((∃ r ∈ items, r.id = n) →
        ∃ r, items.find? (fun i => decide (i.id = n)) = some r ∧ r ∈ items ∧ r.id = n ∧
          getItem items idParam = { status := 200, body := .item r }) ∧
      ((∀ r ∈ items, r.id ≠ n) →
        getItem items idParam = { status := 404, body := .message "Item not found" })) := by
  constructor
  · intro hnan
    have hp : parseInt idParam = none := (parseInt_eq_none_iff idParam).2 hnan
    have hfun : idEquals none = fun _ => false := rfl
    refine ⟨hp, ?_, ?_⟩
    · intro r _
      rw [hp]
      rfl
    · have hfind : items.find? (fun _ => false) = none := by
        rw [List.find?_eq_none]
        intro x _
        simp
      simp [getItem, hp, hfun, hfind]
  · intro ws sign digits rest n hid hws hsign hne hd hr hn
    have hp : parseInt idParam = some n := by
      rw [hid, hn]
      exact parseInt_leading_numeral ws sign digits rest hws hsign hne hd hr
    refine ⟨hp, ?_, getItem_of_parseInt items idParam n hp⟩
    intro k hk
    rw [hn, hk, digitsValue_toString]

/-- C11, amended, at the seed records: `abc4` is answered 404, and `3.5` is looked up under 3
and answered 200 with the record of id 3. -/
theorem getItem_by_leading_numeral_witness :
    getItem mockItems "abc4" = { status := 404, body := .message "Item not found" } ∧
    parseInt "3.5" = some 3 ∧
    ∃ r, r ∈ mockItems ∧ r.id = 3 ∧
      getItem mockItems "3.5" = { status := 200, body := .item r } := by
  have hnan := (getItem_by_leading_numeral mockItems "abc4").1 (by decide)
  have hnum := (getItem_by_leading_numeral mockItems "3.5").2 [] [] ['3'] ['.', '5'] 3
    rfl (by decide) (Or.inl rfl) (by decide) (by decide) (by decide) (by decide)
  obtain ⟨r, _, hmem, hid, hres⟩ := hnum.2.2.1 (by decide)
  exact ⟨hnan.2.2, hnum.1, r, hmem, hid, hres⟩


end LostAndFound
